import Mathlib

/-!
Verification of the content-service engagement subsystem.

This file shallowly embeds the progress-tracking and analytics logic of the
content service (`src/domain/services/content.service.ts` and
`src/infrastructure/database/repositories/content.repository.ts`) and proves
the specified properties about it.  Timestamps are modelled as `Nat`, numeric
columns as `ℚ` (Prisma decimals / JS numbers), the progress table as a
`List ProgressRow`, and thrown errors as `Except String`.
-/

/-- Progress status enum (`UserProgressStatus` in the Prisma schema; the
service layer uses the lowercase string forms `'not_started' | 'in_progress'
| 'completed' | 'paused'`). -/
inductive ProgressStatus where
  | not_started
  | in_progress
  | completed
  | paused
deriving DecidableEq, Repr

/-- One row of the `ContentProgress` table (columns used by the core logic). -/
structure ProgressRow where
  user_id : String
  content_id : String
  status : ProgressStatus
  progress_percentage : ℚ
  time_spent_seconds : ℚ
  last_position_seconds : ℚ
  completion_rating : Option ℚ
  completion_feedback : Option String
  first_accessed_at : Nat
  last_accessed_at : Nat
  completed_at : Option Nat
deriving DecidableEq, Repr

/-- The partial-update argument of `trackProgress` / `trackUserProgress`:
any subset of the six updatable fields (`undefined` = `none`). -/
structure TrackProgressData where
  status : Option ProgressStatus
  progressPercentage : Option ℚ
  timeSpentSeconds : Option ℚ
  lastPositionSeconds : Option ℚ
  completionRating : Option ℚ
  completionFeedback : Option String
deriving DecidableEq, Repr

namespace ContentRepository

/-- The row key test for the compound unique key `(user_id, content_id)`. -/
def keyMatch (userId contentId : String) (r : ProgressRow) : Bool :=
  r.user_id == userId && r.content_id == contentId

/-- The `update` branch of the Prisma upsert in
`ContentRepository.trackProgress`: always refreshes `last_accessed_at`;
copies each field of `data` into the row only when it is present
(the `if (data.x !== undefined)` guards; `if (data.status)` for the enum);
sets `completed_at = now` exactly when `data.status === 'completed'`. -/
def applyUpdate (r : ProgressRow) (data : TrackProgressData) (now : Nat) : ProgressRow :=
  { r with
    last_accessed_at := now
    status := data.status.getD r.status
    progress_percentage := data.progressPercentage.getD r.progress_percentage
    time_spent_seconds := data.timeSpentSeconds.getD r.time_spent_seconds
    last_position_seconds := data.lastPositionSeconds.getD r.last_position_seconds
    completion_rating :=
      if data.completionRating.isSome then data.completionRating else r.completion_rating
    completion_feedback :=
      if data.completionFeedback.isSome then data.completionFeedback else r.completion_feedback
    completed_at :=
      if data.status = some ProgressStatus.completed then some now else r.completed_at }

/-- The `create` branch of the Prisma upsert in
`ContentRepository.trackProgress`: status defaults to `NOT_STARTED`, numeric
fields default to `0` (`data.x || 0`), `first_accessed_at = last_accessed_at
= now`, `completed_at = now` iff the incoming status is `'completed'`. -/
def createRow (userId contentId : String) (data : TrackProgressData) (now : Nat) :
    ProgressRow :=
  { user_id := userId
    content_id := contentId
    status := data.status.getD ProgressStatus.not_started
    progress_percentage := data.progressPercentage.getD 0
    time_spent_seconds := data.timeSpentSeconds.getD 0
    last_position_seconds := data.lastPositionSeconds.getD 0
    completion_rating := data.completionRating
    completion_feedback := data.completionFeedback
    first_accessed_at := now
    last_accessed_at := now
    completed_at :=
      if data.status = some ProgressStatus.completed then some now else none }

/-- `ContentRepository.trackProgress`: an upsert on the compound unique key
`user_id_content_id` — updates the matching row in place if one exists,
otherwise inserts a fresh row.  `now` is the server-side timestamp
`new Date()` taken at the top of the call. -/
def trackProgress (store : List ProgressRow) (userId contentId : String)
    (data : TrackProgressData) (now : Nat) : List ProgressRow :=
  if store.any (keyMatch userId contentId) then
    store.map (fun r => if keyMatch userId contentId r then applyUpdate r data now else r)
  else
    createRow userId contentId data now :: store

/-- Read back the progress row for a `(userId, contentId)` pair. -/
def lookupProgress (store : List ProgressRow) (userId contentId : String) :
    Option ProgressRow :=
  store.find? (keyMatch userId contentId)

end ContentRepository

/-- Progress-table states reachable from an empty table through any sequence
of `ContentRepository.trackProgress` calls. -/
inductive Reachable : List ProgressRow → Prop where
  | nil : Reachable []
  | step (s : List ProgressRow) (u c : String) (d : TrackProgressData) (now : Nat) :
      Reachable s → Reachable (ContentRepository.trackProgress s u c d now)

namespace ContentService

/-- Truthiness test of the guard `!s?.trim()` for a present string: the
trimmed string is empty exactly when every character of `s` is whitespace. -/
def trimmedEmpty (s : String) : Bool :=
  s.data.all Char.isWhitespace

/-- `ContentService.trackUserProgress`: validates the input, fills absent
fields of the partial update with defaults (`status || 'not_started'`,
`progressPercentage ?? 0`, `timeSpentSeconds ?? 0`, `lastPositionSeconds ??
0`), and forwards the fully-populated `safeData` to
`ContentRepository.trackProgress`.  A thrown `Error` is modelled as
`Except.error` carrying the message. -/
def trackUserProgress (store : List ProgressRow) (userId contentId : String)
    (progressData : TrackProgressData) (now : Nat) : Except String (List ProgressRow) :=
  if trimmedEmpty userId || trimmedEmpty contentId then
    Except.error "userId and contentId are required"
  else
    let safeStatus := progressData.status.getD ProgressStatus.not_started
    let safePct := progressData.progressPercentage.getD 0
    let safeTime := progressData.timeSpentSeconds.getD 0
    let safePos := progressData.lastPositionSeconds.getD 0
    if safePct < 0 ∨ safePct > 100 then
      Except.error "Progress percentage must be between 0 and 100"
    else if safeTime < 0 then
      Except.error "Time spent cannot be negative"
    else if safePos < 0 then
      Except.error "Last position cannot be negative"
    else if progressData.completionRating.any (fun r => decide (r < 1) || decide (r > 5)) then
      Except.error "Completion rating must be between 1 and 5"
    else
      Except.ok (ContentRepository.trackProgress store userId contentId
        { status := some safeStatus
          progressPercentage := some safePct
          timeSpentSeconds := some safeTime
          lastPositionSeconds := some safePos
          completionRating := progressData.completionRating
          completionFeedback := progressData.completionFeedback } now)

/-- The progress table seen by the caller after a service call: a thrown
error leaves the stored rows untouched. -/
def storeAfter (init : List ProgressRow) : Except String (List ProgressRow) → List ProgressRow
  | Except.error _ => init
  | Except.ok s => s

/-- Run a sequence of `trackUserProgress` calls (each a tuple of userId,
contentId, partial update, timestamp) starting from the empty table. -/
def runTrackCalls (calls : List (String × String × TrackProgressData × Nat)) :
    List ProgressRow :=
  calls.foldl
    (fun store call =>
      storeAfter store (trackUserProgress store call.1 call.2.1 call.2.2.1 call.2.2.2))
    []

end ContentService

/-- One row of the `ContentInteractionLog` table, restricted to the columns
`getAbandonmentAnalytics` reads (`content_id`, `action`, `progress_at_action`,
`device_type`); `action` is a plain string column in the schema. -/
structure InteractionLogRow where
  content_id : String
  action : String
  progress_at_action : Option ℚ
  device_type : Option String
deriving DecidableEq, Repr

/-- The result record of `ContentRepository.getAbandonmentAnalytics`.  The JS
object `abandonmentByDevice` is modelled as an association list in first-seen
key order. -/
structure AbandonmentAnalytics where
  contentId : String
  totalStarts : Nat
  totalCompletions : Nat
  completionRate : ℚ
  avgAbandonmentPoint : ℚ
  abandonmentByDevice : List (String × Nat)
deriving DecidableEq, Repr

/-- One row of the `Content` table as fetched by the analytics queries
(columns used by the core logic), together with its joined `ContentProgress`
rows. -/
structure ContentRow where
  id : String
  title : String
  view_count : Nat
  completion_count : Nat
  rating_average : Option ℚ
  is_published : Bool
  contentProgress : List ProgressRow
deriving DecidableEq, Repr

/-- A `Topic` row together with the content items joined through
`contentTopics` (the shape `getEffectivenessAnalytics` fetches). -/
structure TopicRow where
  id : String
  name : String
  contents : List ContentRow
deriving DecidableEq, Repr

/-- The result record of `ContentRepository.getEffectivenessAnalytics`
(the `mostEngagedContent` / `leastEngagedContent` top-5 lists are not
modelled: no claim concerns them). -/
structure EffectivenessAnalytics where
  topicId : String
  topicName : String
  totalContent : Nat
  totalViews : Nat
  totalCompletions : Nat
  averageCompletionRate : ℚ
  averageTimeSpent : ℚ
  averageRating : ℚ
deriving DecidableEq, Repr

/-- Priority tiers of `findProblematicContent` (the source string literals
are the Spanish `'CRÍTICO' | 'ALTO' | 'MEDIO' | 'BAJO'`, i.e.
CRITICAL / HIGH / MEDIUM / LOW). -/
inductive Priority where
  | CRITICO
  | ALTO
  | MEDIO
  | BAJO
deriving DecidableEq, Repr

/-- Numeric severity of a priority tier, for stating monotonicity
(CRITICAL most severe). -/
def severity : Priority → Nat
  | Priority.CRITICO => 3
  | Priority.ALTO => 2
  | Priority.MEDIO => 1
  | Priority.BAJO => 0

/-- One element of the `findProblematicContent` result list. -/
structure ProblematicContent where
  contentId : String
  title : String
  completionRate : ℚ
  avgAbandonmentPoint : ℚ
  priority : Priority
  recommendation : String
deriving DecidableEq, Repr

/-- The priority if-chain used (identically) by both
`ContentRepository.findProblematicContent` and
`ContentService.findProblematicContent`:
`completionRate < 20 → CRÍTICO; < 40 → ALTO; < 60 → MEDIO; else BAJO`. -/
def priorityOf (completionRate : ℚ) : Priority :=
  if completionRate < 20 then Priority.CRITICO
  else if completionRate < 40 then Priority.ALTO
  else if completionRate < 60 then Priority.MEDIO
  else Priority.BAJO

namespace ContentRepository

/-- The JS reduce `acc[device] = (acc[device] || 0) + 1` on a plain object:
bump the count of an existing key, else append the key with count 1. -/
def bumpDevice : List (String × Nat) → String → List (String × Nat)
  | [], device => [(device, 1)]
  | (k, n) :: rest, device =>
    if k == device then (k, n + 1) :: rest else (k, n) :: bumpDevice rest device

/-- `ContentRepository.getAbandonmentAnalytics`: a pure aggregation over the
interaction-log rows of `contentId` (the `findMany where content_id` fetch is
the filter).  `Number(a.progress_at_action) || 0` maps a null progress to 0. -/
def getAbandonmentAnalytics (logs : List InteractionLogRow) (contentId : String) :
    AbandonmentAnalytics :=
  let interactions := logs.filter (fun i => i.content_id == contentId)
  let starts := (interactions.filter (fun i => i.action == "start")).length
  let completions := (interactions.filter (fun i => i.action == "complete")).length
  let abandons := interactions.filter (fun i => i.action == "abandon")
  { contentId := contentId
    totalStarts := starts
    totalCompletions := completions
    completionRate := if starts > 0 then ((completions : ℚ) / starts) * 100 else 0
    avgAbandonmentPoint :=
      if abandons.length > 0 then
        (abandons.foldl (fun acc a => acc + a.progress_at_action.getD 0) 0) / abandons.length
      else 0
    abandonmentByDevice :=
      abandons.foldl (fun acc a => bumpDevice acc (a.device_type.getD "unknown")) [] }

/-- `ContentRepository.getEffectivenessAnalytics`: fails with the thrown
`Error('Topic not found')` when `topicId` resolves to no topic, else
aggregates over the topic's content items.  `averageRating` is
`contents.reduce((acc, c) => acc + (c.rating_average || 0), 0) / totalContent
|| 0` — the `|| 0` turns the `0/0 = NaN` of an empty topic into 0. -/
def getEffectivenessAnalytics (topics : List TopicRow) (topicId : String) :
    Except String EffectivenessAnalytics :=
  match topics.find? (fun t => t.id == topicId) with
  | none => Except.error "Topic not found"
  | some topic =>
    let contents := topic.contents
    let totalContent := contents.length
    let totalViews := contents.foldl (fun acc c => acc + c.view_count) 0
    let totalCompletions := contents.foldl (fun acc c => acc + c.completion_count) 0
    let allProgress := (contents.map (fun c => c.contentProgress)).flatten
    Except.ok
      { topicId := topicId
        topicName := topic.name
        totalContent := totalContent
        totalViews := totalViews
        totalCompletions := totalCompletions
        averageCompletionRate :=
          if totalViews > 0 then ((totalCompletions : ℚ) / totalViews) * 100 else 0
        averageTimeSpent :=
          if allProgress.length > 0 then
            (allProgress.foldl (fun acc p => acc + p.time_spent_seconds) 0) / allProgress.length
          else 0
        averageRating :=
          if totalContent = 0 then 0
          else (contents.foldl (fun acc c => acc + c.rating_average.getD 0) 0) / totalContent }

/-- The `_count.contentProgress where status COMPLETED` join of
`findProblematicContent`. -/
def completedCount (c : ContentRow) : Nat :=
  (c.contentProgress.filter (fun p => p.status == ProgressStatus.completed)).length

/-- The recommendation if-chain of `ContentRepository.findProblematicContent`. -/
def repoRecommendation (completionRate : ℚ) : String :=
  if completionRate < 20 then "Revisión urgente necesaria"
  else if completionRate < 40 then "Considerar rediseñar contenido"
  else "Revisar para mejoras menores"

/-- `ContentRepository.findProblematicContent`: fetches at most `limit`
published content items (Prisma `where is_published, take limit`), computes
each item's completion rate from its COMPLETED progress-row count and
`view_count`, hard-codes `avgAbandonmentPoint: 50`, and keeps only the items
with `completionRate < threshold`. -/
def findProblematicContent (contents : List ContentRow) (threshold : ℚ) (limit : Nat) :
    List ProblematicContent :=
  let fetched := (contents.filter (fun c => c.is_published)).take limit
  (fetched.map (fun content =>
    let completionRate : ℚ :=
      if content.view_count > 0 then
        ((completedCount content : ℚ) / content.view_count) * 100
      else 0
    { contentId := content.id
      title := content.title
      completionRate := completionRate
      avgAbandonmentPoint := 50
      priority := priorityOf completionRate
      recommendation := repoRecommendation completionRate })).filter
    (fun content => decide (content.completionRate < threshold))

end ContentRepository

namespace ContentService

/-- The tier-seeded recommendation of `ContentService.findProblematicContent`
before the abandonment-point clause is considered (the `'BAJO'` default
applies when no `completionRate` branch matches). -/
def serviceRecommendation (completionRate : ℚ) : String :=
  if completionRate < 20 then
    "Revisión urgente necesaria. Posible contenido demasiado complejo o poco atractivo."
  else if completionRate < 40 then
    "Considerar rediseñar o reestructurar el contenido para mejorar la retención."
  else if completionRate < 60 then
    "Evaluar si el contenido cumple con las expectativas de los usuarios."
  else "Revisar contenido para posibles mejoras"

/-- `ContentService.findProblematicContent`: calls the repository with the
fixed fetch limit 20, then re-derives priority and recommendation from each
item's completion rate, appending an extra clause when the item's
`avgAbandonmentPoint` is `< 25` or `> 75`. -/
def findProblematicContent (contents : List ContentRow) (threshold : ℚ) :
    List ProblematicContent :=
  (ContentRepository.findProblematicContent contents threshold 20).map (fun content =>
    let recommendation := serviceRecommendation content.completionRate
    let recommendation :=
      if content.avgAbandonmentPoint < 25 then
        recommendation ++ " Los usuarios abandonan al inicio. Mejorar la introducción."
      else if content.avgAbandonmentPoint > 75 then
        recommendation ++
          " Los usuarios abandonan al final. Considerar acortar o hacer más atractivo el final."
      else recommendation
    { content with
      priority := priorityOf content.completionRate
      recommendation := recommendation })

end ContentService

/-- Modelled from the spec sentence for `averageRating` as amended: the plain
mean of `rating_average` across content items, a missing rating counting
as 0, and 0 for a topic with no content. -/
def meanRatingAcrossContents (cs : List ContentRow) : ℚ :=
  if cs.length = 0 then 0
  else (cs.foldl (fun acc c => acc + c.rating_average.getD 0) 0) / cs.length

/-- Sample data: the empty partial update. -/
def dataNone : TrackProgressData := ⟨none, none, none, none, none, none⟩

/-- Sample data: the first call of the spec scenario,
`{status: 'in_progress', progressPercentage: 50}`. -/
def dataInProgress50 : TrackProgressData :=
  ⟨some ProgressStatus.in_progress, some 50, none, none, none, none⟩

/-- Sample data: the partial update `{status: 'completed'}`. -/
def dataCompletedOnly : TrackProgressData :=
  ⟨some ProgressStatus.completed, none, none, none, none, none⟩

/-- Sample data: the partial update `{status: 'in_progress'}`. -/
def dataInProgressOnly : TrackProgressData :=
  ⟨some ProgressStatus.in_progress, none, none, none, none, none⟩

/-- Sample data: an existing progress row for user `U` on content `C`. -/
def sampleRow : ProgressRow :=
  ⟨"U", "C", ProgressStatus.in_progress, 50, 30, 10, none, none, 1, 1, none⟩

/-- Sample data: an interaction log for content `c` with one `start` and two
`complete` actions. -/
def overCompleteLogs : List InteractionLogRow :=
  [⟨"c", "start", none, none⟩, ⟨"c", "complete", none, none⟩, ⟨"c", "complete", none, none⟩]

/-- Sample data: an interaction log for content `c` with two `start` and one
`complete` action. -/
def twoStartLogs : List InteractionLogRow :=
  [⟨"c", "start", none, none⟩, ⟨"c", "start", none, none⟩, ⟨"c", "complete", none, none⟩]

/-- Sample data: a published content item with no views, rated 4. -/
def contentA : ContentRow := ⟨"a", "A", 0, 0, some 4, true, []⟩

/-- Sample data: a published content item with no views, rated 2. -/
def contentB : ContentRow := ⟨"b", "B", 0, 0, some 2, true, []⟩

/-- Sample data: a COMPLETED progress row on content `b`. -/
def completedRowB : ProgressRow :=
  ⟨"u", "b", ProgressStatus.completed, 100, 0, 0, none, none, 1, 1, some 1⟩

/-- Sample data: a published content item with 10 views and 3 COMPLETED
progress rows, so its computed completion rate is 30. -/
def contentB30 : ContentRow :=
  ⟨"b", "B", 10, 0, some 2, true, [completedRowB, completedRowB, completedRowB]⟩

/-- Sample data: a topic owning two content items rated 4 and 2. -/
def twoRatedTopic : TopicRow := ⟨"t", "T", [contentA, contentB]⟩

namespace ContentRepository

/-- The upsert's update branch never changes a row's key columns. -/
theorem keyMatch_applyUpdate (u c : String) (r : ProgressRow) (d : TrackProgressData)
    (now : Nat) : keyMatch u c (applyUpdate r d now) = keyMatch u c r := rfl

/-- A freshly created row matches the key it was created for. -/
theorem keyMatch_createRow (u c : String) (d : TrackProgressData) (now : Nat) :
    keyMatch u c (createRow u c d now) = true := by
  simp [keyMatch, createRow]

/-- Finding in a list mapped by an in-place update that preserves the
predicate is finding in the original list and then mapping. -/
theorem find?_map_upsert (p : ProgressRow → Bool) (f : ProgressRow → ProgressRow)
    (hf : ∀ r, p (f r) = p r) (l : List ProgressRow) :
    (l.map fun r => if p r then f r else r).find? p = (l.find? p).map f := by
  induction l with
  | nil => rfl
  | cons a l ih =>
    cases ha : p a with
    | true =>
      rw [List.map_cons, if_pos ha, List.find?_cons_of_pos _ (by rw [hf]; exact ha),
        List.find?_cons_of_pos _ ha, Option.map_some']
    | false =>
      rw [List.map_cons, if_neg (by simp [ha]), List.find?_cons_of_neg _ (by simp [ha]),
        List.find?_cons_of_neg _ (by simp [ha]), ih]

/-- An in-place map that preserves a predicate keeps the number of rows
satisfying it. -/
theorem length_filter_map_upsert (p q : ProgressRow → Bool) (f : ProgressRow → ProgressRow)
    (hf : ∀ r, q (f r) = q r) (l : List ProgressRow) :
    ((l.map fun r => if p r then f r else r).filter q).length = (l.filter q).length := by
  rw [List.filter_map, List.length_map]
  congr 1
  apply List.filter_congr
  intro r _
  by_cases hp : p r = true
  · simp [hp, hf]
  · simp [hp]

/-- When a row with the key exists, `trackProgress` takes the update branch
and the looked-up row afterwards is exactly the updated row. -/
theorem lookup_trackProgress_existing (store : List ProgressRow) (u c : String)
    (data : TrackProgressData) (now : Nat) (r : ProgressRow)
    (hr : lookupProgress store u c = some r) :
    lookupProgress (trackProgress store u c data now) u c =
      some (applyUpdate r data now) := by
  have hany : store.any (keyMatch u c) = true := by
    rw [List.any_eq_true]
    exact ⟨r, List.mem_of_find?_eq_some hr, List.find?_some hr⟩
  unfold trackProgress
  rw [if_pos hany]
  unfold lookupProgress at hr ⊢
  rw [find?_map_upsert _ _ (fun s => keyMatch_applyUpdate u c s data now), hr,
    Option.map_some']

end ContentRepository

/-- Claim C1 (amended part): for every existing `(userId, contentId)`
progress row, the repository-level `trackProgress` overwrites only the
fields present in its partial-update argument — every absent field keeps its
stored value — while always refreshing `last_accessed_at`.  (The
service-level scenario of the original claim fails; see the
counterexample.) -/
theorem trackProgress_repo_frame (store : List ProgressRow) (u c : String)
    (data : TrackProgressData) (now : Nat) (r : ProgressRow)
    (hr : ContentRepository.lookupProgress store u c = some r) :
    ∃ r', ContentRepository.lookupProgress
        (ContentRepository.trackProgress store u c data now) u c = some r' ∧
      (data.status = none → r'.status = r.status) ∧
      (data.progressPercentage = none → r'.progress_percentage = r.progress_percentage) ∧
      (data.timeSpentSeconds = none → r'.time_spent_seconds = r.time_spent_seconds) ∧
      (data.lastPositionSeconds = none → r'.last_position_seconds = r.last_position_seconds) ∧
      (data.completionRating = none → r'.completion_rating = r.completion_rating) ∧
      (data.completionFeedback = none → r'.completion_feedback = r.completion_feedback) ∧
      r'.last_accessed_at = now := by
  refine ⟨ContentRepository.applyUpdate r data now,
    ContentRepository.lookup_trackProgress_existing store u c data now r hr,
    ?_, ?_, ?_, ?_, ?_, ?_, rfl⟩ <;>
    intro h <;> simp [ContentRepository.applyUpdate, h]

/-- Witness for C1's amended theorem: updating the sample row with an empty
partial update leaves every field unchanged. -/
theorem trackProgress_repo_frame_witness :
    ∃ r', ContentRepository.lookupProgress
        (ContentRepository.trackProgress [sampleRow] "U" "C" dataNone 2) "U" "C" = some r' ∧
      (dataNone.status = none → r'.status = sampleRow.status) ∧
      (dataNone.progressPercentage = none →
        r'.progress_percentage = sampleRow.progress_percentage) ∧
      (dataNone.timeSpentSeconds = none → r'.time_spent_seconds = sampleRow.time_spent_seconds) ∧
      (dataNone.lastPositionSeconds = none →
        r'.last_position_seconds = sampleRow.last_position_seconds) ∧
      (dataNone.completionRating = none → r'.completion_rating = sampleRow.completion_rating) ∧
      (dataNone.completionFeedback = none →
        r'.completion_feedback = sampleRow.completion_feedback) ∧
      r'.last_accessed_at = 2 :=
  trackProgress_repo_frame [sampleRow] "U" "C" dataNone 2 sampleRow (by decide)

/-- Counterexample to claim C1 as stated: running the spec's own scenario
through the service entry point — `trackProgress(U, C, {status:
'in_progress', progressPercentage: 50})` then `trackProgress(U, C, {status:
'completed'})` — leaves `progressPercentage = 0`, not 50, because
`trackUserProgress` defaults the absent `progressPercentage` to 0 before
persisting. -/
theorem trackUserProgress_overwrites_absent_percentage :
    (ContentRepository.lookupProgress
        (ContentService.runTrackCalls
          [("U", "C", dataInProgress50, 1), ("U", "C", dataCompletedOnly, 2)])
        "U" "C").map ProgressRow.progress_percentage = some 0 ∧
    (0 : ℚ) ≠ 50 := by decide

/-- A row created by the insert branch has a completion timestamp whenever
its status is completed. -/
theorem createRow_completed_at (u c : String) (d : TrackProgressData) (now : Nat) :
    (ContentRepository.createRow u c d now).status = ProgressStatus.completed →
    (ContentRepository.createRow u c d now).completed_at ≠ none := by
  unfold ContentRepository.createRow
  cases hd : d.status with
  | none => simp [hd]
  | some st => cases st <;> simp [hd]

/-- The update branch preserves "status completed implies a completion
timestamp". -/
theorem applyUpdate_completed_at (r : ProgressRow) (d : TrackProgressData) (now : Nat)
    (ih : r.status = ProgressStatus.completed → r.completed_at ≠ none) :
    (ContentRepository.applyUpdate r d now).status = ProgressStatus.completed →
    (ContentRepository.applyUpdate r d now).completed_at ≠ none := by
  unfold ContentRepository.applyUpdate
  cases hd : d.status with
  | none => simpa [hd] using ih
  | some st => cases st <;> simp [hd]

/-- Claim C2 (amended): in every reachable progress-table state, a row whose
status is completed has a non-null `completed_at`.  Only this direction of
the spec's iff holds — `trackProgress` never clears `completed_at`, so the
converse fails (see the counterexample). -/
theorem reachable_completed_implies_completed_at (s : List ProgressRow) (hs : Reachable s) :
    ∀ r ∈ s, r.status = ProgressStatus.completed → r.completed_at ≠ none := by
  induction hs with
  | nil => intro r hr; cases hr
  | step s u c d now hsprev ih =>
    intro r hr
    unfold ContentRepository.trackProgress at hr
    by_cases hany : s.any (ContentRepository.keyMatch u c) = true
    · rw [if_pos hany] at hr
      rcases List.mem_map.mp hr with ⟨r0, hr0, heq⟩
      by_cases hk : ContentRepository.keyMatch u c r0 = true
      · rw [if_pos hk] at heq
        subst heq
        exact applyUpdate_completed_at r0 d now (ih r0 hr0)
      · rw [if_neg hk] at heq
        subst heq
        exact ih r0 hr0
    · rw [if_neg hany] at hr
      rcases List.mem_cons.mp hr with heq | hmem
      · subst heq
        exact createRow_completed_at u c d now
      · exact ih r hmem

/-- Witness for C2's amended theorem: the completed row created by one
`trackProgress` call with status completed has a non-null `completed_at`. -/
theorem reachable_completed_witness :
    (⟨"U", "C", ProgressStatus.completed, 0, 0, 0, none, none, 1, 1,
        some 1⟩ : ProgressRow).completed_at ≠ none :=
  reachable_completed_implies_completed_at
    (ContentRepository.trackProgress [] "U" "C" dataCompletedOnly 1)
    (Reachable.step [] "U" "C" dataCompletedOnly 1 Reachable.nil)
    ⟨"U", "C", ProgressStatus.completed, 0, 0, 0, none, none, 1, 1, some 1⟩
    (by decide) (by decide)

/-- Counterexample to claim C2 as stated: tracking status completed at time
1 and then status in_progress at time 2 yields a reachable row with status
in_progress and `completed_at` still `some 1`, breaking the claimed iff. -/
theorem completed_at_survives_status_change :
    (ContentRepository.lookupProgress
        (ContentRepository.trackProgress
          (ContentRepository.trackProgress [] "U" "C" dataCompletedOnly 1)
          "U" "C" dataInProgressOnly 2) "U" "C").map ProgressRow.status =
      some ProgressStatus.in_progress ∧
    (ContentRepository.lookupProgress
        (ContentRepository.trackProgress
          (ContentRepository.trackProgress [] "U" "C" dataCompletedOnly 1)
          "U" "C" dataInProgressOnly 2) "U" "C").map ProgressRow.completed_at =
      some (some 1) ∧
    ProgressStatus.in_progress ≠ ProgressStatus.completed := by decide

/-- At most one row per `(user, content)` key in any reachable table (the
storage-level unique constraint the upsert relies on). -/
theorem reachable_key_unique (s : List ProgressRow) (hs : Reachable s) (u c : String) :
    ((s.filter (ContentRepository.keyMatch u c)).length) ≤ 1 := by
  induction hs with
  | nil => simp
  | step s u' c' d now hsprev ih =>
    unfold ContentRepository.trackProgress
    by_cases hany : s.any (ContentRepository.keyMatch u' c') = true
    · rw [if_pos hany]
      rw [ContentRepository.length_filter_map_upsert (ContentRepository.keyMatch u' c')
        (ContentRepository.keyMatch u c) (fun r => ContentRepository.applyUpdate r d now)
        (fun r => ContentRepository.keyMatch_applyUpdate u c r d now) s]
      exact ih
    · rw [if_neg hany]
      by_cases hk :
          ContentRepository.keyMatch u c (ContentRepository.createRow u' c' d now) = true
      · rw [List.filter_cons_of_pos hk]
        have huc : u' = u ∧ c' = c := by
          simpa [ContentRepository.keyMatch, ContentRepository.createRow] using hk
        obtain ⟨rfl, rfl⟩ := huc
        rw [Bool.not_eq_true] at hany
        have hnil : s.filter (ContentRepository.keyMatch u' c') = [] :=
          List.filter_eq_nil_iff.mpr (List.any_eq_false.mp hany)
        rw [hnil]
        simp
      · rw [List.filter_cons_of_neg hk]
        exact ih

/-- After any `trackProgress` call the touched key resolves to a row. -/
theorem lookup_trackProgress_self (store : List ProgressRow) (u c : String)
    (d : TrackProgressData) (now : Nat) :
    ∃ r1, ContentRepository.lookupProgress
      (ContentRepository.trackProgress store u c d now) u c = some r1 := by
  by_cases hany : store.any (ContentRepository.keyMatch u c) = true
  · have hsome : (store.find? (ContentRepository.keyMatch u c)).isSome = true :=
      List.find?_isSome.mpr (List.any_eq_true.mp hany)
    obtain ⟨r0, hr0⟩ := Option.isSome_iff_exists.mp hsome
    exact ⟨ContentRepository.applyUpdate r0 d now,
      ContentRepository.lookup_trackProgress_existing store u c d now r0 hr0⟩
  · refine ⟨ContentRepository.createRow u c d now, ?_⟩
    unfold ContentRepository.trackProgress
    rw [if_neg hany]
    unfold ContentRepository.lookupProgress
    exact List.find?_cons_of_pos _ (ContentRepository.keyMatch_createRow u c d now)

/-- After a `trackProgress` call on a reachable table, exactly one row holds
the touched key. -/
theorem filter_length_trackProgress (store : List ProgressRow) (hstore : Reachable store)
    (u c : String) (d : TrackProgressData) (now : Nat) :
    ((ContentRepository.trackProgress store u c d now).filter
      (ContentRepository.keyMatch u c)).length = 1 := by
  unfold ContentRepository.trackProgress
  by_cases hany : store.any (ContentRepository.keyMatch u c) = true
  · rw [if_pos hany]
    rw [ContentRepository.length_filter_map_upsert (ContentRepository.keyMatch u c)
      (ContentRepository.keyMatch u c) (fun r => ContentRepository.applyUpdate r d now)
      (fun r => ContentRepository.keyMatch_applyUpdate u c r d now) store]
    have hle := reachable_key_unique store hstore u c
    obtain ⟨r0, hmem, hk⟩ := List.any_eq_true.mp hany
    have hpos : 0 < (store.filter (ContentRepository.keyMatch u c)).length :=
      List.length_pos.mpr (fun hnil => by
        have := List.mem_filter.mpr ⟨hmem, hk⟩
        rw [hnil] at this
        cases this)
    omega
  · rw [if_neg hany]
    rw [List.filter_cons_of_pos (ContentRepository.keyMatch_createRow u c d now)]
    rw [Bool.not_eq_true] at hany
    rw [List.filter_eq_nil_iff.mpr (List.any_eq_false.mp hany)]
    rfl

/-- Claim C3: starting from any reachable table, calling `trackProgress`
twice on the same `(userId, contentId)` with status completed leaves exactly
one row for that key, and its `completedAt` is the second call's timestamp,
not the first's. -/
theorem trackProgress_twice_completed_sets_latest (store : List ProgressRow)
    (hstore : Reachable store) (u c : String) (d1 d2 : TrackProgressData) (t1 t2 : Nat)
    (h1 : d1.status = some ProgressStatus.completed)
    (h2 : d2.status = some ProgressStatus.completed) (hne : t1 ≠ t2) :
    (((ContentRepository.trackProgress
        (ContentRepository.trackProgress store u c d1 t1) u c d2 t2).filter
      (ContentRepository.keyMatch u c)).length = 1) ∧
    ((ContentRepository.lookupProgress
        (ContentRepository.trackProgress
          (ContentRepository.trackProgress store u c d1 t1) u c d2 t2) u c).map
      ProgressRow.completed_at = some (some t2)) ∧
    ((ContentRepository.lookupProgress
        (ContentRepository.trackProgress
          (ContentRepository.trackProgress store u c d1 t1) u c d2 t2) u c).map
      ProgressRow.completed_at ≠ some (some t1)) := by
  have hlook : (ContentRepository.lookupProgress
      (ContentRepository.trackProgress
        (ContentRepository.trackProgress store u c d1 t1) u c d2 t2) u c).map
      ProgressRow.completed_at = some (some t2) := by
    obtain ⟨r1, hr1⟩ := lookup_trackProgress_self store u c d1 t1
    rw [ContentRepository.lookup_trackProgress_existing _ u c d2 t2 r1 hr1,
      Option.map_some']
    have : (ContentRepository.applyUpdate r1 d2 t2).completed_at = some t2 := by
      simp [ContentRepository.applyUpdate, h2]
    rw [this]
  refine ⟨?_, hlook, ?_⟩
  · exact filter_length_trackProgress _ (Reachable.step store u c d1 t1 hstore) u c d2 t2
  · rw [hlook]
    intro hcontra
    injection hcontra with h
    injection h with h
    exact hne h.symm

/-- Witness for C3: two completed calls at times 1 and 2 on an empty table
leave one row with `completedAt = 2`. -/
theorem trackProgress_twice_completed_witness :
    (((ContentRepository.trackProgress
        (ContentRepository.trackProgress [] "U" "C" dataCompletedOnly 1) "U" "C"
        dataCompletedOnly 2).filter (ContentRepository.keyMatch "U" "C")).length = 1) ∧
    ((ContentRepository.lookupProgress
        (ContentRepository.trackProgress
          (ContentRepository.trackProgress [] "U" "C" dataCompletedOnly 1) "U" "C"
          dataCompletedOnly 2) "U" "C").map ProgressRow.completed_at = some (some 2)) ∧
    ((ContentRepository.lookupProgress
        (ContentRepository.trackProgress
          (ContentRepository.trackProgress [] "U" "C" dataCompletedOnly 1) "U" "C"
          dataCompletedOnly 2) "U" "C").map ProgressRow.completed_at ≠ some (some 1)) :=
  trackProgress_twice_completed_sets_latest [] Reachable.nil "U" "C"
    dataCompletedOnly dataCompletedOnly 1 2 rfl rfl (by decide)

/-- Claim C4: whenever the partial update carries a `progressPercentage`
outside [0,100], a negative `timeSpentSeconds` or `lastPositionSeconds`, or
a `completionRating` outside [1,5], `trackUserProgress` fails with a
validation error and the stored progress rows are untouched — the
repository is never invoked. -/
theorem trackUserProgress_invalid_input_errors (store : List ProgressRow) (u c : String)
    (pd : TrackProgressData) (now : Nat)
    (h : (∃ p, pd.progressPercentage = some p ∧ (p < 0 ∨ p > 100)) ∨
         (∃ t, pd.timeSpentSeconds = some t ∧ t < 0) ∨
         (∃ l, pd.lastPositionSeconds = some l ∧ l < 0) ∨
         (∃ r, pd.completionRating = some r ∧ (r < 1 ∨ r > 5))) :
    (∃ msg, ContentService.trackUserProgress store u c pd now = Except.error msg) ∧
    ContentService.storeAfter store (ContentService.trackUserProgress store u c pd now) =
      store := by
  have herr : ∃ msg,
      ContentService.trackUserProgress store u c pd now = Except.error msg := by
    unfold ContentService.trackUserProgress
    dsimp only
    split_ifs with h0 hpct htime hpos hrating
    · exact ⟨_, rfl⟩
    · exact ⟨_, rfl⟩
    · exact ⟨_, rfl⟩
    · exact ⟨_, rfl⟩
    · exact ⟨_, rfl⟩
    · exfalso
      rcases h with ⟨p, hp, hpr⟩ | ⟨t, ht, htr⟩ | ⟨l, hl, hlr⟩ | ⟨r, hr, hrr⟩
      · rw [hp] at hpct
        simp only [Option.getD_some] at hpct
        exact hpct hpr
      · rw [ht] at htime
        simp only [Option.getD_some] at htime
        exact htime htr
      · rw [hl] at hpos
        simp only [Option.getD_some] at hpos
        exact hpos hlr
      · rw [hr] at hrating
        simp only [Option.any_some] at hrating
        rcases hrr with hlt | hgt
        · simp [decide_eq_true hlt] at hrating
        · simp [decide_eq_true hgt] at hrating
  obtain ⟨msg, hmsg⟩ := herr
  refine ⟨⟨msg, hmsg⟩, ?_⟩
  rw [hmsg]
  rfl

/-- Witness for C4: a call with `progressPercentage = 150` errors and leaves
the (empty) table unchanged. -/
theorem trackUserProgress_invalid_input_witness :
    (∃ msg, ContentService.trackUserProgress [] "U" "C"
      ⟨none, some 150, none, none, none, none⟩ 1 = Except.error msg) ∧
    ContentService.storeAfter [] (ContentService.trackUserProgress [] "U" "C"
      ⟨none, some 150, none, none, none, none⟩ 1) = [] :=
  trackUserProgress_invalid_input_errors [] "U" "C"
    ⟨none, some 150, none, none, none, none⟩ 1
    (Or.inl ⟨150, rfl, Or.inr (by norm_num)⟩)

/-- Claim C5: `getAbandonmentAnalytics` is total over content ids — with no
interaction rows for the id it returns the all-zero analytics record instead
of failing — while `getEffectivenessAnalytics` throws its not-found error
whenever the topic id resolves to no topic. -/
theorem abandonment_total_vs_effectiveness_notfound
    (logs : List InteractionLogRow) (contentId : String)
    (topics : List TopicRow) (topicId : String)
    (hlogs : logs.filter (fun i => i.content_id == contentId) = [])
    (htopic : topics.find? (fun t => t.id == topicId) = none) :
    ContentRepository.getAbandonmentAnalytics logs contentId =
      { contentId := contentId, totalStarts := 0, totalCompletions := 0,
        completionRate := 0, avgAbandonmentPoint := 0, abandonmentByDevice := [] } ∧
    ContentRepository.getEffectivenessAnalytics topics topicId =
      Except.error "Topic not found" := by
  constructor
  · unfold ContentRepository.getAbandonmentAnalytics
    rw [hlogs]
    simp
  · unfold ContentRepository.getEffectivenessAnalytics
    rw [htopic]

/-- Witness for C5: empty log and empty topic table. -/
theorem abandonment_total_vs_effectiveness_witness :
    ContentRepository.getAbandonmentAnalytics [] "c" =
      { contentId := "c", totalStarts := 0, totalCompletions := 0,
        completionRate := 0, avgAbandonmentPoint := 0, abandonmentByDevice := [] } ∧
    ContentRepository.getEffectivenessAnalytics [] "t" =
      Except.error "Topic not found" :=
  abandonment_total_vs_effectiveness_notfound [] "c" [] "t" rfl rfl

/-- Bounds of the start/completion rate expression: nonnegative, the exact
ratio formula when starts are positive, zero otherwise, and at most 100 when
completions do not exceed starts. -/
theorem rate_bounds (C S : Nat) :
    0 ≤ (if S > 0 then ((C : ℚ) / S) * 100 else 0) ∧
    (0 < S → (if S > 0 then ((C : ℚ) / S) * 100 else 0) = (C : ℚ) / S * 100) ∧
    (S = 0 → (if S > 0 then ((C : ℚ) / S) * 100 else 0) = 0) ∧
    (C ≤ S → (if S > 0 then ((C : ℚ) / S) * 100 else 0) ≤ 100) := by
  by_cases hS : S > 0
  · have hSq : (0 : ℚ) < S := by exact_mod_cast hS
    refine ⟨?_, fun _ => by rw [if_pos hS], fun h0 => absurd h0 (by omega), fun hCS => ?_⟩
    · rw [if_pos hS]
      positivity
    · rw [if_pos hS]
      have hdiv : (C : ℚ) / S ≤ 1 := by
        rw [div_le_one hSq]
        exact_mod_cast hCS
      nlinarith
  · refine ⟨by rw [if_neg hS], fun h0 => absurd h0 hS, fun _ => by rw [if_neg hS],
      fun _ => by rw [if_neg hS]; norm_num⟩

/-- Claim C6 (amended): the completion rate returned by
`getAbandonmentAnalytics` is nonnegative, equals exactly
`totalCompletions / totalStarts * 100` when `totalStarts > 0` and 0
otherwise; it is at most 100 whenever the log holds no more complete than
start actions, but it is not capped — see the counterexample for a log where
it exceeds 100. -/
theorem completionRate_formula_and_bounds (logs : List InteractionLogRow)
    (contentId : String) (a : AbandonmentAnalytics)
    (ha : a = ContentRepository.getAbandonmentAnalytics logs contentId) :
    0 ≤ a.completionRate ∧
    (0 < a.totalStarts →
      a.completionRate = (a.totalCompletions : ℚ) / (a.totalStarts : ℚ) * 100) ∧
    (a.totalStarts = 0 → a.completionRate = 0) ∧
    (a.totalCompletions ≤ a.totalStarts → a.completionRate ≤ 100) := by
  subst ha
  unfold ContentRepository.getAbandonmentAnalytics
  dsimp only
  exact rate_bounds _ _

/-- Witness for C6's amended theorem: a log with two starts and one
completion. -/
theorem completionRate_formula_witness :
    0 ≤ (ContentRepository.getAbandonmentAnalytics twoStartLogs "c").completionRate ∧
    (0 < (ContentRepository.getAbandonmentAnalytics twoStartLogs "c").totalStarts →
      (ContentRepository.getAbandonmentAnalytics twoStartLogs "c").completionRate =
        ((ContentRepository.getAbandonmentAnalytics twoStartLogs "c").totalCompletions : ℚ) /
          ((ContentRepository.getAbandonmentAnalytics twoStartLogs "c").totalStarts : ℚ) *
          100) ∧
    ((ContentRepository.getAbandonmentAnalytics twoStartLogs "c").totalStarts = 0 →
      (ContentRepository.getAbandonmentAnalytics twoStartLogs "c").completionRate = 0) ∧
    ((ContentRepository.getAbandonmentAnalytics twoStartLogs "c").totalCompletions ≤
        (ContentRepository.getAbandonmentAnalytics twoStartLogs "c").totalStarts →
      (ContentRepository.getAbandonmentAnalytics twoStartLogs "c").completionRate ≤ 100) :=
  completionRate_formula_and_bounds twoStartLogs "c" _ rfl

/-- Counterexample to claim C6 as stated: with one start and two completes
logged for a content id, the completion rate is 200, outside [0,100]. -/
theorem completionRate_can_exceed_100 :
    100 < (ContentRepository.getAbandonmentAnalytics overCompleteLogs "c").completionRate := by
  simp [ContentRepository.getAbandonmentAnalytics, overCompleteLogs]

/-- Claim C9 (amended): for a topic that resolves, the `averageRating`
returned by `getEffectivenessAnalytics` is the plain mean of
`rating_average` across the topic's content items (missing ratings as 0, and
0 for an empty topic) — it is not divided by `totalContent` a second time as
the original claim states. -/
theorem averageRating_eq_mean (topics : List TopicRow) (topicId : String) (topic : TopicRow)
    (h : topics.find? (fun t => t.id == topicId) = some topic) (e : EffectivenessAnalytics)
    (he : ContentRepository.getEffectivenessAnalytics topics topicId = Except.ok e) :
    e.averageRating = meanRatingAcrossContents topic.contents := by
  unfold ContentRepository.getEffectivenessAnalytics at he
  rw [h] at he
  dsimp only at he
  injection he with he
  subst he
  rfl

/-- Witness for C9's amended theorem: the two-item topic rated 4 and 2 gives
`averageRating = 3`. -/
theorem averageRating_eq_mean_witness :
    (⟨"t", "T", 2, 0, 0, 0, 0, 3⟩ : EffectivenessAnalytics).averageRating =
      meanRatingAcrossContents twoRatedTopic.contents :=
  averageRating_eq_mean [twoRatedTopic] "t" twoRatedTopic rfl
    ⟨"t", "T", 2, 0, 0, 0, 0, 3⟩
    (by simp [ContentRepository.getEffectivenessAnalytics, twoRatedTopic, contentA, contentB]
        norm_num)

/-- Counterexample to claim C9 as stated: for the topic with ratings 4 and 2
the code returns `averageRating = 3` (the mean), while the claimed value —
the mean divided again by `totalContent = 2` — would be 3/2. -/
theorem averageRating_not_mean_div_total :
    (ContentRepository.getEffectivenessAnalytics [twoRatedTopic] "t").toOption.map
      EffectivenessAnalytics.averageRating = some 3 ∧
    ((((4 : ℚ) + 2) / 2) / 2 ≠ 3) := by
  constructor
  · simp [ContentRepository.getEffectivenessAnalytics, twoRatedTopic, contentA, contentB,
      Except.toOption]
    norm_num
  · norm_num

/-- Claim C7: every item returned by `findProblematicContent` has a computed
completion rate strictly below the threshold; no item at or above it is ever
returned. -/
theorem findProblematicContent_below_threshold (contents : List ContentRow)
    (threshold : ℚ) (limit : Nat) (item : ProblematicContent)
    (h : item ∈ ContentRepository.findProblematicContent contents threshold limit) :
    item.completionRate < threshold := by
  unfold ContentRepository.findProblematicContent at h
  rw [List.mem_filter] at h
  exact of_decide_eq_true h.2

/-- Witness for C7: the zero-view item is returned at threshold 40 and its
rate 0 is below 40. -/
theorem findProblematicContent_below_threshold_witness :
    (⟨"a", "A", 0, 50, Priority.CRITICO,
        "Revisión urgente necesaria"⟩ : ProblematicContent).completionRate < 40 :=
  findProblematicContent_below_threshold [contentA] 40 20
    ⟨"a", "A", 0, 50, Priority.CRITICO, "Revisión urgente necesaria"⟩ (by decide)

/-- Severity of the priority tier never increases as the completion rate
grows. -/
theorem priorityOf_antitone (r1 r2 : ℚ) (h : r1 ≤ r2) :
    severity (priorityOf r2) ≤ severity (priorityOf r1) := by
  unfold priorityOf severity
  split_ifs <;> simp_all <;> linarith

/-- Every item built by the repository's `findProblematicContent` carries
the hard-coded `avgAbandonmentPoint = 50`. -/
theorem mem_repo_problematic_avg (contents : List ContentRow) (threshold : ℚ)
    (limit : Nat) (item : ProblematicContent)
    (h : item ∈ ContentRepository.findProblematicContent contents threshold limit) :
    item.avgAbandonmentPoint = 50 := by
  unfold ContentRepository.findProblematicContent at h
  rw [List.mem_filter, List.mem_map] at h
  obtain ⟨⟨c0, hc0, heq⟩, _⟩ := h
  subst heq
  rfl

/-- Every item of the service-level `findProblematicContent` has the tier of
its completion rate, the constant abandonment point 50, and the tier-seeded
recommendation with no abandonment clause appended. -/
theorem mem_service_problematic (contents : List ContentRow) (threshold : ℚ)
    (item : ProblematicContent)
    (h : item ∈ ContentService.findProblematicContent contents threshold) :
    item.priority = priorityOf item.completionRate ∧
    item.avgAbandonmentPoint = 50 ∧
    item.recommendation = ContentService.serviceRecommendation item.completionRate := by
  unfold ContentService.findProblematicContent at h
  rw [List.mem_map] at h
  obtain ⟨content, hmem, heq⟩ := h
  have havg : content.avgAbandonmentPoint = 50 :=
    mem_repo_problematic_avg contents threshold 20 content hmem
  subst heq
  dsimp only
  rw [havg]
  norm_num

/-- Claim C8: among any two items returned by `findProblematicContent`, the
one with the lower completion rate has a severity tier at least as high —
the tier (CRITICAL below 20, HIGH below 40, MEDIUM below 60, else LOW) is a
monotonically non-increasing function of the rate. -/
theorem problematic_priority_monotone (contents : List ContentRow) (threshold : ℚ)
    (a b : ProblematicContent)
    (ha : a ∈ ContentService.findProblematicContent contents threshold)
    (hb : b ∈ ContentService.findProblematicContent contents threshold)
    (hle : a.completionRate ≤ b.completionRate) :
    severity b.priority ≤ severity a.priority := by
  rw [(mem_service_problematic contents threshold a ha).1,
    (mem_service_problematic contents threshold b hb).1]
  exact priorityOf_antitone a.completionRate b.completionRate hle

/-- Witness for C8: of two returned items with rates 0 (CRITICAL) and 30
(HIGH), the higher-rate one has severity at most the lower-rate one's. -/
theorem problematic_priority_monotone_witness :
    severity (⟨"b", "B", 30, 50, Priority.ALTO,
        "Considerar rediseñar o reestructurar el contenido para mejorar la retención."⟩ :
      ProblematicContent).priority ≤
    severity (⟨"a", "A", 0, 50, Priority.CRITICO,
        "Revisión urgente necesaria. Posible contenido demasiado complejo o poco atractivo."⟩ :
      ProblematicContent).priority :=
  problematic_priority_monotone [contentA, contentB30] 40
    ⟨"a", "A", 0, 50, Priority.CRITICO,
      "Revisión urgente necesaria. Posible contenido demasiado complejo o poco atractivo."⟩
    ⟨"b", "B", 30, 50, Priority.ALTO,
      "Considerar rediseñar o reestructurar el contenido para mejorar la retención."⟩
    (by simp [ContentService.findProblematicContent, ContentRepository.findProblematicContent,
        ContentRepository.completedCount, contentA, contentB30, completedRowB,
        ContentService.serviceRecommendation, priorityOf, ContentRepository.repoRecommendation]
        norm_num)
    (by simp [ContentService.findProblematicContent, ContentRepository.findProblematicContent,
        ContentRepository.completedCount, contentA, contentB30, completedRowB,
        ContentService.serviceRecommendation, priorityOf, ContentRepository.repoRecommendation]
        norm_num
        exact ⟨_, ⟨rfl, by norm_num⟩, by norm_num⟩)
    (by norm_num)

/-- Claim C10: every item returned by `findProblematicContent` carries the
constant `avgAbandonmentPoint = 50` — the function never consults the
interaction logs — and hence the abandonment-point clauses (appended only
below 25 or above 75) never reach any returned recommendation. -/
theorem problematic_avgAbandonment_const (contents : List ContentRow) (threshold : ℚ)
    (item : ProblematicContent)
    (h : item ∈ ContentService.findProblematicContent contents threshold) :
    item.avgAbandonmentPoint = 50 ∧
    item.recommendation = ContentService.serviceRecommendation item.completionRate := by
  obtain ⟨hp, havg, hrec⟩ := mem_service_problematic contents threshold item h
  exact ⟨havg, hrec⟩

/-- Witness for C10: the returned item for the zero-view content has
abandonment point 50 and the bare tier recommendation. -/
theorem problematic_avgAbandonment_const_witness :
    (⟨"a", "A", 0, 50, Priority.CRITICO,
        "Revisión urgente necesaria. Posible contenido demasiado complejo o poco atractivo."⟩ :
      ProblematicContent).avgAbandonmentPoint = 50 ∧
    (⟨"a", "A", 0, 50, Priority.CRITICO,
        "Revisión urgente necesaria. Posible contenido demasiado complejo o poco atractivo."⟩ :
      ProblematicContent).recommendation =
      ContentService.serviceRecommendation
        (⟨"a", "A", 0, 50, Priority.CRITICO,
            "Revisión urgente necesaria. Posible contenido demasiado complejo o poco atractivo."⟩ :
          ProblematicContent).completionRate :=
  problematic_avgAbandonment_const [contentA] 30
    ⟨"a", "A", 0, 50, Priority.CRITICO,
      "Revisión urgente necesaria. Posible contenido demasiado complejo o poco atractivo."⟩
    (by decide)
